import Mathlib

/-!
Verification of the CHIP-8 CPU core (opcode decoder and execution engine).

This file is a shallow embedding of `src/opcode.rs` and `src/machine.rs`.
Machine integers are embedded as `Nat` with explicit `% 2^w` at the points
where the Rust code performs wrapping arithmetic or an `as`-cast; `u8` values
held in registers and memory are kept below 256 by construction.  Fixed-size
arrays (`[u8; 4096]`, `[u8; 16]`, `[[bool; 64]; 32]`, `[bool; 16]`) are
embedded as total functions from indices, with the Rust bounds-checked
indexing of `memory` and `keys` made explicit through `Option`-returning
accessors (`memRead`, `memWrite`, `keysRead`): Rust aborts on an
out-of-range index, which the embedding models as the result `none`.
Register indices reaching the register file always come from decoded
4-bit nibbles and are below 16, so `regs` is accessed directly.
The only source of nondeterminism, `thread_rng().gen()` in the
`SetRegToRandom` instruction, is modelled as an oracle argument (`rand`,
and a per-instruction oracle `rands` for `cycle`).
-/

set_option maxHeartbeats 1000000

/-! ## Embedding of `src/opcode.rs` -/

inductive OpcodeError where
  | UnrecognizedOpcode (w : Nat)
  | InvalidModeForSetRegToReg (m : Nat)
deriving DecidableEq

inductive SetRegMode where
  | Copy
  | Or
  | And
  | Xor
  | Add
  | Subtract
  | InverseSubtract
  | ShiftLeft
  | ShiftRight
deriving DecidableEq

def SetRegMode.from_u8 (byte : Nat) : Option SetRegMode :=
  match byte with
  | 0x0 => some .Copy
  | 0x1 => some .Or
  | 0x2 => some .And
  | 0x3 => some .Xor
  | 0x4 => some .Add
  | 0x5 => some .Subtract
  | 0x6 => some .ShiftRight
  | 0x7 => some .InverseSubtract
  | 0xE => some .ShiftLeft
  | _ => none

inductive Opcode where
  | ClearScreen
  | Return
  | JumpTo (addr : Nat) (plus_v0 : Bool)
  | Call (addr : Nat)
  | SkipIfRegEqualConst (not_equal : Bool) (reg : Nat) (value : Nat)
  | SkipIfRegsEqual (not_equal : Bool) (regs : Nat × Nat)
  | SetRegToConst (add : Bool) (reg : Nat) (value : Nat)
  | SetRegToReg (regs : Nat × Nat) (mode : SetRegMode)
  | SetAddressReg (addr : Nat)
  | SetRegToRandom (reg : Nat) (mask : Nat)
  | DrawSprite (regs : Nat × Nat) (rows : Nat)
  | SkipIfKeyInRegPressed (not_pressed : Bool) (reg : Nat)
  | WaitForKeyInReg (reg : Nat)
  | SetRegToDelayTimer (reg : Nat)
  | SetDelayTimerToReg (reg : Nat)
  | SetSoundTimerToReg (reg : Nat)
  | AddRegToAddressReg (reg : Nat)
  | SetAddressRegToCharInReg (reg : Nat)
  | RegToBCD (reg : Nat)
  | DumpRegsToAddr (reg : Nat)
  | LoadRegsFromAddr (reg : Nat)
deriving DecidableEq

/-- The decoder `Opcode::from_u16`.  The Rust `match` statements test a
masked nibble against disjoint constants; they are embedded as the
equivalent chains of equality tests. -/
def Opcode.from_u16 (bytes : Nat) : Except OpcodeError Opcode :=
  if bytes &&& 0xF000 = 0x0000 then
    if bytes &&& 0x0F00 = 0x000 then
      if bytes &&& 0x00F0 = 0xE0 then
        if bytes &&& 0x000F = 0x0 then .ok .ClearScreen
        else if bytes &&& 0x000F = 0xE then .ok .Return
        else .error (.UnrecognizedOpcode bytes)
      else .error (.UnrecognizedOpcode bytes)
    else .error (.UnrecognizedOpcode bytes)
  else if bytes &&& 0xF000 = 0x1000 ∨ bytes &&& 0xF000 = 0xB000 then
    .ok (.JumpTo (bytes &&& 0x0FFF) (bytes &&& 0xF000 == 0xB000))
  else if bytes &&& 0xF000 = 0x2000 then .ok (.Call (bytes &&& 0x0FFF))
  else if bytes &&& 0xF000 = 0x3000 ∨ bytes &&& 0xF000 = 0x4000 then
    .ok (.SkipIfRegEqualConst (bytes &&& 0xF000 == 0x4000) ((bytes &&& 0x0F00) >>> 8)
      (bytes &&& 0x00FF))
  else if bytes &&& 0xF000 = 0x5000 ∨ bytes &&& 0xF000 = 0x9000 then
    if bytes &&& 0x000F = 0x0 then
      .ok (.SkipIfRegsEqual (bytes &&& 0xF000 == 0x9000)
        ((bytes &&& 0x0F00) >>> 8, (bytes &&& 0x00F0) >>> 4))
    else .error (.UnrecognizedOpcode bytes)
  else if bytes &&& 0xF000 = 0x6000 ∨ bytes &&& 0xF000 = 0x7000 then
    .ok (.SetRegToConst (bytes &&& 0xF000 == 0x7000) ((bytes &&& 0x0F00) >>> 8)
      (bytes &&& 0x00FF))
  else if bytes &&& 0xF000 = 0x8000 then
    match SetRegMode.from_u8 (bytes &&& 0x000F) with
    | none => .error (.InvalidModeForSetRegToReg (bytes &&& 0x000F))
    | some mode =>
      .ok (.SetRegToReg ((bytes &&& 0x0F00) >>> 8, (bytes &&& 0x00F0) >>> 4) mode)
  else if bytes &&& 0xF000 = 0xA000 then .ok (.SetAddressReg (bytes &&& 0x0FFF))
  else if bytes &&& 0xF000 = 0xC000 then
    .ok (.SetRegToRandom ((bytes &&& 0x0F00) >>> 8) (bytes &&& 0x0FF))
  else if bytes &&& 0xF000 = 0xD000 then
    .ok (.DrawSprite ((bytes &&& 0x0F00) >>> 8, (bytes &&& 0x00F0) >>> 4) (bytes &&& 0x000F))
  else if bytes &&& 0xF000 = 0xE000 then
    if bytes &&& 0x00FF = 0x9E ∨ bytes &&& 0x00FF = 0xA1 then
      .ok (.SkipIfKeyInRegPressed ((bytes &&& 0x00FF) == 0xA1) ((bytes &&& 0x0F00) >>> 8))
    else .error (.UnrecognizedOpcode bytes)
  else if bytes &&& 0xF000 = 0xF000 then
    if bytes &&& 0x00FF = 0x07 then .ok (.SetRegToDelayTimer ((bytes &&& 0x0F00) >>> 8))
    else if bytes &&& 0x00FF = 0x0A then .ok (.WaitForKeyInReg ((bytes &&& 0x0F00) >>> 8))
    else if bytes &&& 0x00FF = 0x15 then .ok (.SetDelayTimerToReg ((bytes &&& 0x0F00) >>> 8))
    else if bytes &&& 0x00FF = 0x18 then .ok (.SetSoundTimerToReg ((bytes &&& 0x0F00) >>> 8))
    else if bytes &&& 0x00FF = 0x1E then .ok (.AddRegToAddressReg ((bytes &&& 0x0F00) >>> 8))
    else if bytes &&& 0x00FF = 0x29 then
      .ok (.SetAddressRegToCharInReg ((bytes &&& 0x0F00) >>> 8))
    else if bytes &&& 0x00FF = 0x33 then .ok (.RegToBCD ((bytes &&& 0x0F00) >>> 8))
    else if bytes &&& 0x00FF = 0x55 then .ok (.DumpRegsToAddr ((bytes &&& 0x0F00) >>> 8))
    else if bytes &&& 0x00FF = 0x65 then .ok (.LoadRegsFromAddr ((bytes &&& 0x0F00) >>> 8))
    else .error (.UnrecognizedOpcode bytes)
  else .error (.UnrecognizedOpcode bytes)

/-! ## Embedding of `src/machine.rs` -/

def PROGRAM_START : Nat := 0x200

def FONT_START : Nat := 0x50

def MEMORY_SIZE : Nat := 4096

def REGISTER_COUNT : Nat := 16

def FONTMAP : List Nat :=
  [0xF0, 0x90, 0x90, 0x90, 0xF0,
   0x20, 0x60, 0x20, 0x20, 0x70,
   0xF0, 0x10, 0xF0, 0x80, 0xF0,
   0xF0, 0x10, 0xF0, 0x10, 0xF0,
   0x90, 0x90, 0xF0, 0x10, 0x10,
   0xF0, 0x80, 0xF0, 0x10, 0xF0,
   0xF0, 0x80, 0xF0, 0x90, 0xF0,
   0xF0, 0x10, 0x20, 0x40, 0x40,
   0xF0, 0x90, 0xF0, 0x90, 0xF0,
   0xF0, 0x90, 0xF0, 0x10, 0xF0,
   0xF0, 0x90, 0xF0, 0x90, 0x90,
   0xE0, 0x90, 0xE0, 0x90, 0xE0,
   0xF0, 0x80, 0x80, 0x80, 0xF0,
   0xE0, 0x90, 0x90, 0x90, 0xE0,
   0xF0, 0x80, 0xF0, 0x80, 0xF0,
   0xF0, 0x80, 0xF0, 0x80, 0x80]

inductive RuntimeError where
  | EmptyCallStack
  | InvalidRegister (r : Nat)
  | AddressOutOfBounds (a : Nat)
  | OpcodeErr (e : OpcodeError)
deriving DecidableEq

structure Chip8 where
  memory : Nat → Nat
  regs : Nat → Nat
  address_reg : Nat
  pc : Nat
  stack : List Nat
  delay_timer : Nat
  sound_timer : Nat
  screen : Nat → Nat → Bool
  awaiting_key : Option Nat
  speed : Int

/-- Pointwise update of a register file / memory embedded as a function. -/
def setReg (regs : Nat → Nat) (i v : Nat) : Nat → Nat :=
  fun j => if j = i then v else regs j

/-- Write a list of bytes at consecutive addresses (the loops in
`inject_fontmap` and `load_program`). -/
def writeList : (Nat → Nat) → Nat → List Nat → (Nat → Nat)
  | mem, _, [] => mem
  | mem, start, b :: bs => writeList (fun a => if a = start then b else mem a) (start + 1) bs

/-- Bounds-checked read of `self.memory[addr]`; `none` models the Rust abort
on an out-of-range index. -/
def memRead (c : Chip8) (addr : Nat) : Option Nat :=
  if addr < MEMORY_SIZE then some (c.memory addr) else none

/-- Bounds-checked write to `self.memory[addr]`. -/
def memWrite (c : Chip8) (addr v : Nat) : Option Chip8 :=
  if addr < MEMORY_SIZE then
    some { c with memory := fun a => if a = addr then v else c.memory a }
  else none

/-- Bounds-checked read of `keys[i]` (a `[bool; 16]` in the source). -/
def keysRead (keys : Nat → Bool) (i : Nat) : Option Bool :=
  if i < 16 then some (keys i) else none

def Chip8.inject_fontmap (c : Chip8) : Chip8 :=
  { c with memory := writeList c.memory FONT_START FONTMAP }

def Chip8.new : Chip8 :=
  Chip8.inject_fontmap
    { memory := fun _ => 0
      regs := fun _ => 0
      address_reg := 0
      pc := PROGRAM_START
      stack := []
      delay_timer := 0
      sound_timer := 0
      screen := fun _ _ => false
      awaiting_key := none
      speed := 7 }

/-- `load_program` copies the program bytes to memory starting at
`PROGRAM_START` (the `io::Read` plumbing of the source is outside the core). -/
def Chip8.load_program (c : Chip8) (bytes : List Nat) : Chip8 :=
  { c with memory := writeList c.memory PROGRAM_START bytes }

def Chip8.clear_screen (c : Chip8) : Chip8 :=
  { c with screen := fun _ _ => false }

/-- `set_pixel`: wraps both coordinates (`x & 63`, `y & 31`), flips the pixel,
and returns the previous pixel state. -/
def Chip8.set_pixel (c : Chip8) (x y : Nat) : Chip8 × Bool :=
  let x := x &&& 63
  let y := y &&& 31
  let previous_state := c.screen y x
  ({ c with screen := fun r s => if r = y ∧ s = x then !c.screen y x else c.screen r s },
   previous_state)

def Chip8.update_timers (c : Chip8) : Chip8 :=
  { c with
    delay_timer := if c.delay_timer > 0 then c.delay_timer - 1 else c.delay_timer
    sound_timer := if c.sound_timer > 0 then c.sound_timer - 1 else c.sound_timer }

/-- The inner `for col in 0..8` loop of the `DrawSprite` arm, over an explicit
list of column indices. -/
def Chip8.draw_cols (sprite_slice x y row : Nat) (cols : List Nat) (c : Chip8) : Chip8 :=
  cols.foldl
    (fun c col =>
      if sprite_slice &&& (128 >>> col) ≠ 0 then
        let r := c.set_pixel (x + col) (y + row)
        if r.2 then { r.1 with regs := setReg r.1.regs 0xF 1 } else r.1
      else c)
    c

/-- The outer `for row in 0..rows` loop of the `DrawSprite` arm: read the
sprite byte at `address_reg + row` (u16 add, bounds-checked index) and blit
its 8 pixels. -/
def Chip8.draw_rows (x y : Nat) (rws : List Nat) (c : Chip8) : Option Chip8 :=
  rws.foldlM
    (fun c row =>
      match memRead c ((c.address_reg + row) % 65536) with
      | none => none
      | some sprite_slice => some (Chip8.draw_cols sprite_slice x y row (List.range 8) c))
    c

def Chip8.execute_opcode (c : Chip8) (opcode : Opcode) (keys : Nat → Bool) (rand : Nat) :
    Option (Chip8 × Option RuntimeError) :=
  match opcode with
  | .ClearScreen => some (c.clear_screen, none)
  | .Return =>
    match c.stack with
    | [] => some (c, some .EmptyCallStack)
    | addr :: rest => some ({ c with pc := addr, stack := rest }, none)
  | .JumpTo addr plus_v0 =>
    let c := { c with pc := addr }
    some (if plus_v0 then { c with pc := (c.pc + c.regs 0) % 65536 } else c, none)
  | .Call addr => some ({ c with stack := c.pc :: c.stack, pc := addr }, none)
  | .SkipIfRegEqualConst not_equal reg value =>
    let should_jump := c.regs reg == value
    let should_jump := if not_equal then !should_jump else should_jump
    some (if should_jump then { c with pc := (c.pc + 2) % 65536 } else c, none)
  | .SkipIfRegsEqual not_equal (v_x, v_y) =>
    let should_jump := c.regs v_x == c.regs v_y
    let should_jump := if not_equal then !should_jump else should_jump
    some (if should_jump then { c with pc := (c.pc + 2) % 65536 } else c, none)
  | .SetRegToConst add reg value =>
    if add then
      some ({ c with regs := setReg c.regs reg ((c.regs reg + value) &&& 255) }, none)
    else
      some ({ c with regs := setReg c.regs reg value }, none)
  | .SetRegToReg (v_x, v_y) mode =>
    match mode with
    | .Copy => some ({ c with regs := setReg c.regs v_x (c.regs v_y) }, none)
    | .Or => some ({ c with regs := setReg c.regs v_x (c.regs v_x ||| c.regs v_y) }, none)
    | .And => some ({ c with regs := setReg c.regs v_x (c.regs v_x &&& c.regs v_y) }, none)
    | .Xor => some ({ c with regs := setReg c.regs v_x (c.regs v_x ^^^ c.regs v_y) }, none)
    | .Add =>
      let regs := setReg c.regs 0xF 0
      let reg_value := regs v_x + regs v_y
      let p := if reg_value > 255 then (reg_value - 256, setReg regs 0xF 1) else (reg_value, regs)
      some ({ c with regs := setReg p.2 v_x (p.1 % 256) }, none)
    | .Subtract =>
      let regs := setReg c.regs 0xF 1
      let reg_value : Int := (regs v_x : Int) - (regs v_y : Int)
      let p := if reg_value < 0 then (reg_value + 256, setReg regs 0xF 0) else (reg_value, regs)
      some ({ c with regs := setReg p.2 v_x (p.1.toNat % 256) }, none)
    | .InverseSubtract =>
      let regs := setReg c.regs 0xF 1
      let reg_value : Int := (regs v_y : Int) - (regs v_x : Int)
      let p := if reg_value < 0 then (reg_value + 256, setReg regs 0xF 0) else (reg_value, regs)
      some ({ c with regs := setReg p.2 v_x (p.1.toNat % 256) }, none)
    | .ShiftLeft =>
      let regs := setReg c.regs 0xF (c.regs v_x &&& 128)
      some ({ c with regs := setReg regs v_x ((regs v_x <<< 1) % 256) }, none)
    | .ShiftRight =>
      let regs := setReg c.regs 0xF (c.regs v_x &&& 0x1)
      some ({ c with regs := setReg regs v_x (regs v_x >>> 1) }, none)
  | .SetAddressReg addr => some ({ c with address_reg := addr }, none)
  | .SetRegToRandom reg mask =>
    some ({ c with regs := setReg c.regs reg ((rand % 256) &&& mask) }, none)
  | .DrawSprite (v_x, v_y) rows =>
    let x := c.regs v_x
    let y := c.regs v_y
    let c := { c with regs := setReg c.regs 0xF 0 }
    match Chip8.draw_rows x y (List.range rows) c with
    | none => none
    | some c' => some (c', none)
  | .SetRegToDelayTimer reg =>
    some ({ c with regs := setReg c.regs reg (c.delay_timer % 256) }, none)
  | .SetDelayTimerToReg reg => some ({ c with delay_timer := c.regs reg }, none)
  | .SetSoundTimerToReg reg => some ({ c with sound_timer := c.regs reg }, none)
  | .AddRegToAddressReg reg =>
    some ({ c with address_reg := (c.address_reg + c.regs reg) % 65536 }, none)
  | .SetAddressRegToCharInReg reg =>
    let ch := c.regs reg
    some ({ c with address_reg := (FONT_START + ch * 5) % 65536 }, none)
  | .WaitForKeyInReg reg => some ({ c with awaiting_key := some reg }, none)
  | .SkipIfKeyInRegPressed not_pressed reg =>
    match keysRead keys (c.regs reg) with
    | none => none
    | some k =>
      let should_jump := if not_pressed then !k else k
      some (if should_jump then { c with pc := (c.pc + 2) % 65536 } else c, none)
  | .RegToBCD reg =>
    let number := c.regs reg
    let hundreds_digit := number / 100
    let tens_digit := (number / 10) % 10
    let ones_digit := number % 10
    match memWrite c c.address_reg hundreds_digit with
    | none => none
    | some c1 =>
      match memWrite c1 ((c1.address_reg + 1) % 65536) tens_digit with
      | none => none
      | some c2 =>
        match memWrite c2 ((c2.address_reg + 2) % 65536) ones_digit with
        | none => none
        | some c3 => some (c3, none)
  | .DumpRegsToAddr reg =>
    match (List.range (reg + 1)).foldlM
        (fun c cur_reg => memWrite c ((c.address_reg + cur_reg) % 65536) (c.regs cur_reg)) c with
    | none => none
    | some c' => some (c', none)
  | .LoadRegsFromAddr reg =>
    match (List.range (reg + 1)).foldlM
        (fun c cur_reg =>
          match memRead c ((c.address_reg + cur_reg) % 65536) with
          | none => none
          | some v => some { c with regs := setReg c.regs cur_reg v })
        c with
    | none => none
    | some c' => some (c', none)

/-- The `if let Some(reg) = self.awaiting_key` block at the top of `cycle`:
scan all 16 keys in ascending order; every pressed key overwrites the pending
register and clears the wait. -/
def Chip8.resolve_awaiting_key (c : Chip8) (keys : Nat → Bool) : Chip8 :=
  match c.awaiting_key with
  | none => c
  | some reg =>
    (List.range 16).foldl
      (fun c offset =>
        if keys offset then
          { c with regs := setReg c.regs reg (offset % 256), awaiting_key := none }
        else c)
      c

/-- The `for _ in 0..self.speed + 1` fetch/decode/execute loop of `cycle`,
with `n` remaining iterations and `i` the index into the random oracle. -/
def Chip8.cycle_iter (keys : Nat → Bool) (rands : Nat → Nat) :
    Nat → Nat → Chip8 → Option (Chip8 × Option RuntimeError)
  | 0, _, c => some (c, none)
  | n + 1, i, c =>
    match memRead c c.pc with
    | none => none
    | some hi =>
      match memRead c (c.pc + 1) with
      | none => none
      | some lo =>
        match Opcode.from_u16 (hi <<< 8 ||| lo) with
        | .error err => some (c, some (.OpcodeErr err))
        | .ok opcode =>
          match ({ c with pc := (c.pc + 2) % 65536 }).execute_opcode opcode keys (rands i) with
          | none => none
          | some (c', some e) => some (c', some e)
          | some (c', none) => Chip8.cycle_iter keys rands n (i + 1) c'

def Chip8.cycle (c : Chip8) (keys : Nat → Bool) (rands : Nat → Nat) :
    Option (Chip8 × Option RuntimeError) :=
  let c := c.resolve_awaiting_key keys
  match Chip8.cycle_iter keys rands (c.speed + 1).toNat 0 c with
  | none => none
  | some (c', some e) => some (c', some e)
  | some (c', none) => some (c'.update_timers, none)

/-- Iterated `cycle` calls, stopping at the first aborted or erroring call. -/
def Chip8.cycleN (keys : Nat → Bool) (rands2 : Nat → Nat → Nat) :
    Nat → Chip8 → Option (Chip8 × Option RuntimeError)
  | 0, c => some (c, none)
  | n + 1, c =>
    match c.cycle keys (rands2 n) with
    | some (c', none) => Chip8.cycleN keys rands2 n c'
    | other => other

/-! ## Claim-side definitions -/

/-- The defined opcode families of the instruction set, transcribed from the
spec (section 4.1) as nibble patterns on the instruction word: 00E0/00EE,
1NNN, BNNN, 2NNN, 3XNN, 4XNN, 5XY0, 9XY0, 6XNN, 7XNN, 8XY* (the whole
register-to-register ALU family), ANNN, CXNN, DXYN, EX9E, EXA1, and the
nine FX** instructions. -/
def definedFamily (b : Nat) : Bool :=
  ((b &&& 0xF000) == 0x0000 && (b &&& 0x0F00) == 0x000 && (b &&& 0x00F0) == 0xE0 &&
    ((b &&& 0x000F) == 0x0 || (b &&& 0x000F) == 0xE)) ||
  (b &&& 0xF000) == 0x1000 || (b &&& 0xF000) == 0xB000 ||
  (b &&& 0xF000) == 0x2000 ||
  (b &&& 0xF000) == 0x3000 || (b &&& 0xF000) == 0x4000 ||
  (((b &&& 0xF000) == 0x5000 || (b &&& 0xF000) == 0x9000) && (b &&& 0x000F) == 0x0) ||
  (b &&& 0xF000) == 0x6000 || (b &&& 0xF000) == 0x7000 ||
  (b &&& 0xF000) == 0x8000 ||
  (b &&& 0xF000) == 0xA000 || (b &&& 0xF000) == 0xC000 || (b &&& 0xF000) == 0xD000 ||
  ((b &&& 0xF000) == 0xE000 && ((b &&& 0x00FF) == 0x9E || (b &&& 0x00FF) == 0xA1)) ||
  ((b &&& 0xF000) == 0xF000 &&
    ((b &&& 0x00FF) == 0x07 || (b &&& 0x00FF) == 0x0A || (b &&& 0x00FF) == 0x15 ||
     (b &&& 0x00FF) == 0x18 || (b &&& 0x00FF) == 0x1E || (b &&& 0x00FF) == 0x29 ||
     (b &&& 0x00FF) == 0x33 || (b &&& 0x00FF) == 0x55 || (b &&& 0x00FF) == 0x65))

/-- Last pressed key index found by a left-to-right scan of keys `0..n`
(`none` when no key below `n` is pressed). -/
def lastPressed (keys : Nat → Bool) (n : Nat) : Option Nat :=
  (List.range n).foldl (fun acc offset => if keys offset then some offset else acc) none

/-- Whether one sprite byte, blitted at horizontal position `x`, has a set
bit (MSB first) landing on screen column `p` (for column indices `cols`). -/
def colHit (sprite x : Nat) (cols : List Nat) (p : Nat) : Bool :=
  cols.any fun col => (sprite &&& (128 >>> col) != 0) && (p == (x + col) % 64)

/-- Whether one sprite byte, blitted at `(x, yr)` over screen `scr`, has a
set bit landing on an already-set pixel. -/
def colCollide (scr : Nat → Nat → Bool) (sprite x yr : Nat) (cols : List Nat) : Bool :=
  cols.any fun col => (sprite &&& (128 >>> col) != 0) && scr (yr % 32) ((x + col) % 64)

/-- Whether the sprite read from `mem` at address `i` (row indices `rws`,
8 columns each) has a set bit landing on screen position `(q, p)`. -/
def rowsHit (mem : Nat → Nat) (i x y : Nat) (rws : List Nat) (q p : Nat) : Bool :=
  rws.any fun row =>
    (q == (y + row) % 32) && colHit (mem ((i + row) % 65536)) x (List.range 8) p

/-- Whether the sprite read from `mem` at address `i` has a set bit landing
on an already-set pixel of `scr`. -/
def rowsCollide (scr : Nat → Nat → Bool) (mem : Nat → Nat) (i x y : Nat)
    (rws : List Nat) : Bool :=
  rws.any fun row => colCollide scr (mem ((i + row) % 65536)) x (y + row) (List.range 8)

/-- The sprite mask of a draw instruction on machine `c`: the set of screen
positions `(q, p)` whose pixel the sprite XORs, as the claim describes them:
bit `col` (MSB first) of the byte at address register + `row` lands at
`((V[y] + row) mod 32, (V[x] + col) mod 64)`. -/
def spriteHit (c : Chip8) (x y rows q p : Nat) : Bool :=
  rowsHit c.memory c.address_reg x y (List.range rows) q p

/-- The collision predicate of a draw instruction on machine `c`: some
sprite bit lands on a pixel already set on `c`'s screen. -/
def spriteCollide (c : Chip8) (x y rows : Nat) : Bool :=
  rowsCollide c.screen c.memory c.address_reg x y (List.range rows)

/-- C1 counterexample state: V0 = 5, VF = 7. -/
def c1_state : Chip8 :=
  { Chip8.new with regs := setReg (setReg Chip8.new.regs 0 5) 15 7 }

/-- C7 counterexample state: VF = 1. -/
def c7_state : Chip8 := { Chip8.new with regs := setReg Chip8.new.regs 15 1 }

/-- C2 counterexample state: awaiting a key into V0, with a jump-to-self
program loaded so the rest of the cycle succeeds. -/
def c2_state : Chip8 :=
  { Chip8.new.load_program [0x12, 0x00] with awaiting_key := some 0, speed := 0 }

/-- C3 counterexample state: delay timer 5, memory holding no program, so
the first fetch decodes the word 0 and the cycle aborts with a decode
error. -/
def c3_state : Chip8 := { Chip8.new with delay_timer := 5 }

/-- The machine of the C9 scenario: freshly constructed, loaded with the
two-byte program `[0x12, 0x00]` (jump to 0x200), with the speed knob set
to an arbitrary value. -/
def jump_self_machine (s : Int) : Chip8 :=
  { Chip8.new.load_program [0x12, 0x00] with speed := s }

/-- Machine that reaches a BCD write out of bounds: the program sets the
address register to 0xFFE and then executes the BCD instruction, whose
third write (at 0xFFE + 2 = 4096) indexes past the end of memory. -/
def bcd_oob_machine : Chip8 := Chip8.new.load_program [0xAF, 0xFE, 0xF0, 0x33]

/-- Machine that reaches an instruction fetch out of bounds: the program
jumps to 0xFFF, so the next fetch reads addresses 4095 and 4096. -/
def fetch_oob_machine : Chip8 := Chip8.new.load_program [0x1F, 0xFF]

/-- C5 counterexample state: address register at 4095. -/
def c5_state : Chip8 := { Chip8.new with address_reg := 4095 }

/-! ## Helper lemmas -/

lemma setReg_eval (r : Nat → Nat) (i v j : Nat) :
    setReg r i v j = if j = i then v else r j := rfl

lemma setReg_setReg_same (r : Nat → Nat) (i a b : Nat) :
    setReg (setReg r i a) i b = setReg r i b := by
  funext j
  by_cases h : j = i <;> simp [setReg, h]

lemma and63_eq_mod (x : Nat) : x &&& 63 = x % 64 := by
  have := Nat.and_pow_two_sub_one_eq_mod x 6
  norm_num at this
  exact this

lemma and31_eq_mod (x : Nat) : x &&& 31 = x % 32 := by
  have := Nat.and_pow_two_sub_one_eq_mod x 5
  norm_num at this
  exact this

lemma and_mask_mod (b : Nat) : (b &&& 61440) % 4096 = 0 := by
  have h1 : (b &&& 61440) &&& 4095 = b &&& (61440 &&& 4095) := Nat.and_assoc b 61440 4095
  have h2 : (61440 : Nat) &&& 4095 = 0 := by decide
  have h3 : (b &&& 61440) &&& 4095 = (b &&& 61440) % 4096 := by
    have := Nat.and_pow_two_sub_one_eq_mod (b &&& 61440) 12
    norm_num at this
    exact this
  rw [h2, Nat.and_zero] at h1
  omega

lemma from_u16_total (b : Nat) :
    (definedFamily b = false ∧ Opcode.from_u16 b = .error (.UnrecognizedOpcode b)) ∨
    (b &&& 0xF000 = 0x8000 ∧ SetRegMode.from_u8 (b &&& 0x000F) = none ∧
      Opcode.from_u16 b = .error (.InvalidModeForSetRegToReg (b &&& 0x000F))) ∨
    ((∃ op, Opcode.from_u16 b = .ok op) ∧ definedFamily b = true ∧
      (b &&& 0xF000 = 0x8000 → SetRegMode.from_u8 (b &&& 0x000F) ≠ none)) := by
  have hle : b &&& 61440 ≤ 61440 := Nat.and_le_right
  have hmod := and_mask_mod b
  have hj : ∃ j, j < 16 ∧ b &&& 61440 = 4096 * j := ⟨(b &&& 61440) / 4096, by omega, by omega⟩
  obtain ⟨j, hj16, hm⟩ := hj
  interval_cases j <;> norm_num at hm
  -- j = 0 : family 0
  · by_cases h1 : b &&& 3840 = 0
    · by_cases h2 : b &&& 240 = 224
      · by_cases h3 : b &&& 15 = 0
        · exact .inr (.inr ⟨⟨.ClearScreen, by simp [Opcode.from_u16, hm, h1, h2, h3]⟩,
            by simp [definedFamily, hm, h1, h2, h3], by omega⟩)
        · by_cases h4 : b &&& 15 = 14
          · exact .inr (.inr ⟨⟨.Return, by simp [Opcode.from_u16, hm, h1, h2, h3, h4]⟩,
              by simp [definedFamily, hm, h1, h2, h3, h4], by omega⟩)
          · exact .inl ⟨by simp [definedFamily, hm, h1, h2, h3, h4],
              by simp [Opcode.from_u16, hm, h1, h2, h3, h4]⟩
      · exact .inl ⟨by simp [definedFamily, hm, h1, h2],
          by simp [Opcode.from_u16, hm, h1, h2]⟩
    · exact .inl ⟨by simp [definedFamily, hm, h1],
        by simp [Opcode.from_u16, hm, h1]⟩
  -- j = 1 : JumpTo
  · exact .inr (.inr ⟨⟨.JumpTo (b &&& 4095) false, by simp [Opcode.from_u16, hm]⟩,
      by simp [definedFamily, hm], by omega⟩)
  -- j = 2 : Call
  · exact .inr (.inr ⟨⟨.Call (b &&& 4095), by simp [Opcode.from_u16, hm]⟩,
      by simp [definedFamily, hm], by omega⟩)
  -- j = 3
  · exact .inr (.inr ⟨⟨.SkipIfRegEqualConst false ((b &&& 3840) >>> 8) (b &&& 255),
      by simp [Opcode.from_u16, hm]⟩, by simp [definedFamily, hm], by omega⟩)
  -- j = 4
  · exact .inr (.inr ⟨⟨.SkipIfRegEqualConst true ((b &&& 3840) >>> 8) (b &&& 255),
      by simp [Opcode.from_u16, hm]⟩, by simp [definedFamily, hm], by omega⟩)
  -- j = 5
  · by_cases h1 : b &&& 15 = 0
    · exact .inr (.inr ⟨⟨.SkipIfRegsEqual false ((b &&& 3840) >>> 8, (b &&& 240) >>> 4),
        by simp [Opcode.from_u16, hm, h1]⟩, by simp [definedFamily, hm, h1], by omega⟩)
    · exact .inl ⟨by simp [definedFamily, hm, h1], by simp [Opcode.from_u16, hm, h1]⟩
  -- j = 6
  · exact .inr (.inr ⟨⟨.SetRegToConst false ((b &&& 3840) >>> 8) (b &&& 255),
      by simp [Opcode.from_u16, hm]⟩, by simp [definedFamily, hm], by omega⟩)
  -- j = 7
  · exact .inr (.inr ⟨⟨.SetRegToConst true ((b &&& 3840) >>> 8) (b &&& 255),
      by simp [Opcode.from_u16, hm]⟩, by simp [definedFamily, hm], by omega⟩)
  -- j = 8
  · cases hmode : SetRegMode.from_u8 (b &&& 15) with
    | none => exact .inr (.inl ⟨hm, rfl, by simp [Opcode.from_u16, hm, hmode]⟩)
    | some mode =>
      exact .inr (.inr ⟨⟨.SetRegToReg ((b &&& 3840) >>> 8, (b &&& 240) >>> 4) mode,
        by simp [Opcode.from_u16, hm, hmode]⟩, by simp [definedFamily, hm],
        by simp [hmode]⟩)
  -- j = 9
  · by_cases h1 : b &&& 15 = 0
    · exact .inr (.inr ⟨⟨.SkipIfRegsEqual true ((b &&& 3840) >>> 8, (b &&& 240) >>> 4),
        by simp [Opcode.from_u16, hm, h1]⟩, by simp [definedFamily, hm, h1], by omega⟩)
    · exact .inl ⟨by simp [definedFamily, hm, h1], by simp [Opcode.from_u16, hm, h1]⟩
  -- j = 10 : A
  · exact .inr (.inr ⟨⟨.SetAddressReg (b &&& 4095), by simp [Opcode.from_u16, hm]⟩,
      by simp [definedFamily, hm], by omega⟩)
  -- j = 11 : B
  · exact .inr (.inr ⟨⟨.JumpTo (b &&& 4095) true, by simp [Opcode.from_u16, hm]⟩,
      by simp [definedFamily, hm], by omega⟩)
  -- j = 12 : C
  · exact .inr (.inr ⟨⟨.SetRegToRandom ((b &&& 3840) >>> 8) (b &&& 255),
      by simp [Opcode.from_u16, hm]⟩, by simp [definedFamily, hm], by omega⟩)
  -- j = 13 : D
  · exact .inr (.inr ⟨⟨.DrawSprite ((b &&& 3840) >>> 8, (b &&& 240) >>> 4) (b &&& 15),
      by simp [Opcode.from_u16, hm]⟩, by simp [definedFamily, hm], by omega⟩)
  -- j = 14 : E
  · by_cases h1 : b &&& 255 = 158
    · exact .inr (.inr ⟨⟨.SkipIfKeyInRegPressed false ((b &&& 3840) >>> 8),
        by simp [Opcode.from_u16, hm, h1]⟩, by simp [definedFamily, hm, h1], by omega⟩)
    · by_cases h2 : b &&& 255 = 161
      · exact .inr (.inr ⟨⟨.SkipIfKeyInRegPressed true ((b &&& 3840) >>> 8),
          by simp [Opcode.from_u16, hm, h1, h2]⟩, by simp [definedFamily, hm, h1, h2],
          by omega⟩)
      · exact .inl ⟨by simp [definedFamily, hm, h1, h2],
          by simp [Opcode.from_u16, hm, h1, h2]⟩
  -- j = 15 : F
  · by_cases h1 : b &&& 255 = 7
    · exact .inr (.inr ⟨⟨.SetRegToDelayTimer ((b &&& 3840) >>> 8),
        by simp [Opcode.from_u16, hm, h1]⟩, by simp [definedFamily, hm, h1], by omega⟩)
    · by_cases h2 : b &&& 255 = 10
      · exact .inr (.inr ⟨⟨.WaitForKeyInReg ((b &&& 3840) >>> 8),
          by simp [Opcode.from_u16, hm, h1, h2]⟩, by simp [definedFamily, hm, h1, h2],
          by omega⟩)
      · by_cases h3 : b &&& 255 = 21
        · exact .inr (.inr ⟨⟨.SetDelayTimerToReg ((b &&& 3840) >>> 8),
            by simp [Opcode.from_u16, hm, h1, h2, h3]⟩,
            by simp [definedFamily, hm, h1, h2, h3], by omega⟩)
        · by_cases h4 : b &&& 255 = 24
          · exact .inr (.inr ⟨⟨.SetSoundTimerToReg ((b &&& 3840) >>> 8),
              by simp [Opcode.from_u16, hm, h1, h2, h3, h4]⟩,
              by simp [definedFamily, hm, h1, h2, h3, h4], by omega⟩)
          · by_cases h5 : b &&& 255 = 30
            · exact .inr (.inr ⟨⟨.AddRegToAddressReg ((b &&& 3840) >>> 8),
                by simp [Opcode.from_u16, hm, h1, h2, h3, h4, h5]⟩,
                by simp [definedFamily, hm, h1, h2, h3, h4, h5], by omega⟩)
            · by_cases h6 : b &&& 255 = 41
              · exact .inr (.inr ⟨⟨.SetAddressRegToCharInReg ((b &&& 3840) >>> 8),
                  by simp [Opcode.from_u16, hm, h1, h2, h3, h4, h5, h6]⟩,
                  by simp [definedFamily, hm, h1, h2, h3, h4, h5, h6], by omega⟩)
              · by_cases h7 : b &&& 255 = 51
                · exact .inr (.inr ⟨⟨.RegToBCD ((b &&& 3840) >>> 8),
                    by simp [Opcode.from_u16, hm, h1, h2, h3, h4, h5, h6, h7]⟩,
                    by simp [definedFamily, hm, h1, h2, h3, h4, h5, h6, h7], by omega⟩)
                · by_cases h8 : b &&& 255 = 85
                  · exact .inr (.inr ⟨⟨.DumpRegsToAddr ((b &&& 3840) >>> 8),
                      by simp [Opcode.from_u16, hm, h1, h2, h3, h4, h5, h6, h7, h8]⟩,
                      by simp [definedFamily, hm, h1, h2, h3, h4, h5, h6, h7, h8], by omega⟩)
                  · by_cases h9 : b &&& 255 = 101
                    · exact .inr (.inr ⟨⟨.LoadRegsFromAddr ((b &&& 3840) >>> 8),
                        by simp [Opcode.from_u16, hm, h1, h2, h3, h4, h5, h6, h7, h8, h9]⟩,
                        by simp [definedFamily, hm, h1, h2, h3, h4, h5, h6, h7, h8, h9],
                        by omega⟩)
                    · exact .inl ⟨by simp [definedFamily, hm, h1, h2, h3, h4, h5, h6, h7, h8, h9],
                        by simp [Opcode.from_u16, hm, h1, h2, h3, h4, h5, h6, h7, h8, h9]⟩

lemma foldl_lastPressed_acc (keys : Nat → Bool) (l : List Nat) (a : Option Nat) :
    l.foldl (fun acc o => if keys o then some o else acc) a =
      match l.foldl (fun acc o => if keys o then some o else acc) none with
      | some h => some h
      | none => a := by
  induction l generalizing a with
  | nil => rfl
  | cons o rest ih =>
    simp only [List.foldl_cons]
    by_cases h : keys o
    · simp only [if_pos h]
      rw [ih (some o)]
      cases hr : rest.foldl (fun acc o => if keys o then some o else acc) none <;> simp [hr]
    · simp only [if_neg h]
      exact ih a

lemma lastPressed_succ (keys : Nat → Bool) (n : Nat) :
    lastPressed keys (n + 1) = if keys n then some n else lastPressed keys n := by
  unfold lastPressed
  rw [List.range_succ, List.foldl_append]
  rfl

lemma lastPressed_spec (keys : Nat → Bool) : ∀ n : Nat,
    (∀ h, lastPressed keys n = some h →
      h < n ∧ keys h = true ∧ ∀ j, h < j → j < n → keys j = false) ∧
    (lastPressed keys n = none → ∀ j, j < n → keys j = false) := by
  intro n
  induction n with
  | zero =>
    constructor
    · intro h hh; cases hh
    · intro _ j hj; omega
  | succ n ih =>
    rw [lastPressed_succ]
    by_cases h : keys n
    · simp only [h, if_true, ite_true]
      constructor
      · intro h' hh
        injection hh with he
        subst he
        exact ⟨Nat.lt_succ_self _, h, fun j hj1 hj2 => by omega⟩
      · intro hnone; cases hnone
    · have hkn : keys n = false := by
        cases hkn : keys n
        · rfl
        · exact absurd hkn h
      simp only [h, if_false, ite_false]
      constructor
      · intro h' hh
        obtain ⟨hlt, hk, hall⟩ := ih.1 h' hh
        refine ⟨by omega, hk, fun j hj1 hj2 => ?_⟩
        rcases Nat.lt_succ_iff_lt_or_eq.mp hj2 with hj | hj
        · exact hall j hj1 hj
        · subst hj; exact hkn
      · intro hnone j hj
        rcases Nat.lt_succ_iff_lt_or_eq.mp hj with hj' | hj'
        · exact ih.2 hnone j hj'
        · subst hj'; exact hkn

lemma resolve_fold (reg : Nat) (keys : Nat → Bool) : ∀ (l : List Nat) (c : Chip8),
    l.foldl (fun c offset =>
        if keys offset then
          { c with regs := setReg c.regs reg (offset % 256), awaiting_key := none }
        else c) c =
      match l.foldl (fun acc o => if keys o then some o else acc) none with
      | none => c
      | some h => { c with regs := setReg c.regs reg (h % 256), awaiting_key := none } := by
  intro l
  induction l with
  | nil => intro c; rfl
  | cons o rest ih =>
    intro c
    simp only [List.foldl_cons]
    by_cases h : keys o
    · simp only [h, if_true, ite_true]
      rw [ih]
      rw [foldl_lastPressed_acc keys rest (some o)]
      cases hr : rest.foldl (fun acc o => if keys o then some o else acc) none with
      | none => simp
      | some h' => simp [setReg_setReg_same]
    · simp only [h, if_false, ite_false]
      exact ih c

lemma resolve_awaiting_some (c : Chip8) (keys : Nat → Bool) (reg h : Nat)
    (hk : c.awaiting_key = some reg) (hl : lastPressed keys 16 = some h) :
    c.resolve_awaiting_key keys =
      { c with regs := setReg c.regs reg (h % 256), awaiting_key := none } := by
  unfold Chip8.resolve_awaiting_key
  rw [hk]
  have hfold := resolve_fold reg keys (List.range 16) c
  rw [show (List.range 16).foldl (fun acc o => if keys o then some o else acc) none =
      lastPressed keys 16 from rfl, hl] at hfold
  exact hfold

lemma cycle_iter_jump_self (keys : Nat → Bool) (rands : Nat → Nat) :
    ∀ (n i : Nat) (c : Chip8), c.pc = 512 → c.memory 512 = 18 → c.memory 513 = 0 →
      Chip8.cycle_iter keys rands n i c = some (c, none) := by
  intro n
  induction n with
  | zero => intro i c _ _ _; rfl
  | succ n ih =>
    intro i c hpc h1 h2
    have hr1 : memRead c c.pc = some 18 := by
      rw [hpc]; simp [memRead, MEMORY_SIZE, h1]
    have hr2 : memRead c (c.pc + 1) = some 0 := by
      rw [hpc]; simp [memRead, MEMORY_SIZE, h2]
    have hdec : Opcode.from_u16 (18 <<< 8 ||| 0) = Except.ok (.JumpTo 512 false) := rfl
    simp only [Chip8.cycle_iter, hr1, hr2, hdec, Chip8.execute_opcode, Bool.false_eq_true,
      if_false, ite_false]
    have hc : ({ c with pc := 512 } : Chip8) = c := by rw [← hpc]
    rw [hc]
    exact ih (i + 1) c hpc h1 h2

lemma cycle_jump_self (s : Int) (keys : Nat → Bool) (rands : Nat → Nat) :
    Chip8.cycle (jump_self_machine s) keys rands = some (jump_self_machine s, none) := by
  have hres : (jump_self_machine s).resolve_awaiting_key keys = jump_self_machine s := rfl
  simp only [Chip8.cycle, hres]
  rw [cycle_iter_jump_self keys rands _ 0 _ rfl rfl rfl]
  rfl

lemma execute_opcode_error (c : Chip8) (op : Opcode) (keys : Nat → Bool) (rand : Nat)
    (c' : Chip8) (e : RuntimeError)
    (h : c.execute_opcode op keys rand = some (c', some e)) : e = .EmptyCallStack := by
  cases op <;> simp only [Chip8.execute_opcode] at h
  all_goals repeat' split at h
  all_goals simp_all

lemma cycle_iter_error (keys : Nat → Bool) (rands : Nat → Nat) :
    ∀ (n i : Nat) (c c' : Chip8) (e : RuntimeError),
      Chip8.cycle_iter keys rands n i c = some (c', some e) →
      (∃ oe, e = .OpcodeErr oe) ∨ e = .EmptyCallStack := by
  intro n
  induction n with
  | zero => intro i c c' e h; simp [Chip8.cycle_iter] at h
  | succ n ih =>
    intro i c c' e h
    unfold Chip8.cycle_iter at h
    repeat' split at h
    · cases h
    · cases h
    · injection h with h1
      injection h1 with h2 h3
      injection h3 with h4
      subst h4
      exact .inl ⟨_, rfl⟩
    · cases h
    · rename_i heq
      injection h with h1
      injection h1 with h2 h3
      injection h3 with h4
      subst h4
      exact .inr (execute_opcode_error _ _ _ _ _ _ heq)
    · exact ih (i + 1) _ c' e h

lemma cycle_error (c : Chip8) (keys : Nat → Bool) (rands : Nat → Nat) (c' : Chip8)
    (e : RuntimeError) (h : c.cycle keys rands = some (c', some e)) :
    (∃ oe, e = .OpcodeErr oe) ∨ e = .EmptyCallStack := by
  simp only [Chip8.cycle] at h
  cases hit : Chip8.cycle_iter keys rands ((c.resolve_awaiting_key keys).speed + 1).toNat 0
      (c.resolve_awaiting_key keys) with
  | none => rw [hit] at h; cases h
  | some p =>
    obtain ⟨cm, e'⟩ := p
    rw [hit] at h
    cases e' with
    | none => simp at h
    | some err =>
      injection h with h1
      injection h1 with h2 h3
      injection h3 with h4
      subst h4
      exact cycle_iter_error keys rands _ 0 (c.resolve_awaiting_key keys) cm err hit

lemma any_congr {α : Type} {l : List α} {f g : α → Bool} (h : ∀ a ∈ l, f a = g a) :
    l.any f = l.any g := by
  induction l with
  | nil => rfl
  | cons a rest ih =>
    simp only [List.any_cons]
    rw [h a (List.mem_cons_self a rest), ih (fun a ha => h a (List.mem_cons_of_mem _ ha))]

lemma set_pixel_eq (c : Chip8) (x y : Nat) :
    c.set_pixel x y =
      ({ c with screen := fun r s =>
          if r = y % 32 ∧ s = x % 64 then !c.screen (y % 32) (x % 64) else c.screen r s },
       c.screen (y % 32) (x % 64)) := by
  simp only [Chip8.set_pixel, and63_eq_mod, and31_eq_mod]

lemma draw_cols_spec (sprite x y row : Nat) : ∀ (cols : List Nat) (c : Chip8),
    (∀ col ∈ cols, col < 8) → cols.Nodup →
    Chip8.draw_cols sprite x y row cols c =
      { c with
        screen := fun q p =>
          if q = (y + row) % 32 then xor (c.screen q p) (colHit sprite x cols p)
          else c.screen q p,
        regs := if colCollide c.screen sprite x (y + row) cols then setReg c.regs 0xF 1
                else c.regs } := by
  intro cols
  induction cols with
  | nil =>
    intro c _ _
    simp [Chip8.draw_cols, colHit, colCollide, ite_self]
  | cons col rest ih =>
    intro c hlt hnd
    have hrest : ∀ c' ∈ rest, c' < 8 := fun c' hc' => hlt c' (List.mem_cons_of_mem _ hc')
    have hnotin : col ∉ rest := (List.nodup_cons.mp hnd).1
    have hndrest : rest.Nodup := (List.nodup_cons.mp hnd).2
    have hdist : ∀ c' ∈ rest, (x + c') % 64 ≠ (x + col) % 64 := by
      intro c' hc' heq
      have h8 : c' < 8 := hrest c' hc'
      have hc8 : col < 8 := hlt col (List.mem_cons_self _ _)
      have hne : c' ≠ col := fun hcc => hnotin (hcc ▸ hc')
      omega
    have hstep : Chip8.draw_cols sprite x y row (col :: rest) c =
        Chip8.draw_cols sprite x y row rest
          (if sprite &&& (128 >>> col) ≠ 0 then
            (if (c.set_pixel (x + col) (y + row)).2 then
              { (c.set_pixel (x + col) (y + row)).1 with
                regs := setReg (c.set_pixel (x + col) (y + row)).1.regs 0xF 1 }
            else (c.set_pixel (x + col) (y + row)).1)
          else c) := by
      simp only [Chip8.draw_cols, List.foldl_cons]
    by_cases hb : sprite &&& (128 >>> col) ≠ 0
    · have hbit : (sprite &&& (128 >>> col) != 0) = true := by
        simp only [bne_iff_ne, ne_eq]
        exact hb
      rw [hstep, if_pos hb]
      simp only [set_pixel_eq]
      have hcoll : colCollide (fun r s =>
            if r = (y + row) % 32 ∧ s = (x + col) % 64 then
              !(c.screen ((y + row) % 32) ((x + col) % 64))
            else c.screen r s) sprite x (y + row) rest =
          colCollide c.screen sprite x (y + row) rest := by
        apply any_congr
        intro c' hc'
        have hne := hdist c' hc'
        simp [hne]
      have hconsc : colCollide c.screen sprite x (y + row) (col :: rest) =
          (c.screen ((y + row) % 32) ((x + col) % 64) ||
            colCollide c.screen sprite x (y + row) rest) := by
        simp only [colCollide, List.any_cons, hbit, Bool.true_and]
      by_cases hprev : c.screen ((y + row) % 32) ((x + col) % 64) = true
      · rw [if_pos hprev, ih _ hrest hndrest]
        simp only [hcoll]
        simp only [Chip8.mk.injEq, true_and, and_true]
        constructor
        · by_cases hcrest : colCollide c.screen sprite x (y + row) rest = true <;>
            simp [hconsc, hprev, hcrest, setReg_setReg_same]
        · funext q p
          by_cases hq : q = (y + row) % 32
          · subst hq
            by_cases hp : p = (x + col) % 64
            · subst hp
              have hrestP : colHit sprite x rest ((x + col) % 64) = false := by
                simp only [colHit, List.any_eq_false]
                intro c' hc'
                simp only [Bool.and_eq_true, not_and, bne_iff_ne, ne_eq, beq_iff_eq]
                exact fun _ hpp => hdist c' hc' hpp.symm
              have hconsP : colHit sprite x (col :: rest) ((x + col) % 64) = true := by
                simp only [colHit, List.any_cons, hbit, Bool.true_and, beq_iff_eq]
                simp
              simp [hrestP, hconsP, hprev]
            · have hconsp : colHit sprite x (col :: rest) p = colHit sprite x rest p := by
                simp only [colHit, List.any_cons, hbit, Bool.true_and]
                have hbeq : (p == (x + col) % 64) = false := by
                  simp only [beq_eq_false_iff_ne, ne_eq]
                  exact hp
                rw [hbeq, Bool.false_or]
              simp [hp, hconsp]
          · simp [hq]
      · rw [if_neg hprev, ih _ hrest hndrest]
        simp only [hcoll]
        simp only [Chip8.mk.injEq, true_and, and_true]
        constructor
        · have hprevf : c.screen ((y + row) % 32) ((x + col) % 64) = false := by
            cases hsc : c.screen ((y + row) % 32) ((x + col) % 64)
            · rfl
            · exact absurd hsc hprev
          by_cases hcrest : colCollide c.screen sprite x (y + row) rest = true <;>
            simp [hconsc, hprevf, hcrest]
        · funext q p
          by_cases hq : q = (y + row) % 32
          · subst hq
            by_cases hp : p = (x + col) % 64
            · subst hp
              have hrestP : colHit sprite x rest ((x + col) % 64) = false := by
                simp only [colHit, List.any_eq_false]
                intro c' hc'
                simp only [Bool.and_eq_true, not_and, bne_iff_ne, ne_eq, beq_iff_eq]
                exact fun _ hpp => hdist c' hc' hpp.symm
              have hconsP : colHit sprite x (col :: rest) ((x + col) % 64) = true := by
                simp only [colHit, List.any_cons, hbit, Bool.true_and, beq_iff_eq]
                simp
              simp [hrestP, hconsP]
            · have hconsp : colHit sprite x (col :: rest) p = colHit sprite x rest p := by
                simp only [colHit, List.any_cons, hbit, Bool.true_and]
                have hbeq : (p == (x + col) % 64) = false := by
                  simp only [beq_eq_false_iff_ne, ne_eq]
                  exact hp
                rw [hbeq, Bool.false_or]
              simp [hp, hconsp]
          · simp [hq]
    · have hbit : (sprite &&& (128 >>> col) != 0) = false := by
        simp only [bne_eq_false_iff_eq]
        simpa using hb
      rw [hstep, if_neg hb, ih _ hrest hndrest]
      have h1 : colHit sprite x (col :: rest) = colHit sprite x rest := by
        funext p
        simp only [colHit, List.any_cons, hbit, Bool.false_and, Bool.false_or]
      have h2 : colCollide c.screen sprite x (y + row) (col :: rest) =
          colCollide c.screen sprite x (y + row) rest := by
        simp only [colCollide, List.any_cons, hbit, Bool.false_and, Bool.false_or]
      rw [h1, h2]

lemma draw_rows_spec (x y : Nat) : ∀ (rws : List Nat) (c : Chip8),
    (∀ r ∈ rws, r < 32) → rws.Nodup →
    (∀ r ∈ rws, (c.address_reg + r) % 65536 < 4096) →
    Chip8.draw_rows x y rws c = some
      { c with
        screen := fun q p =>
          xor (c.screen q p) (rowsHit c.memory c.address_reg x y rws q p),
        regs := if rowsCollide c.screen c.memory c.address_reg x y rws then
            setReg c.regs 0xF 1
          else c.regs } := by
  intro rws
  induction rws with
  | nil =>
    intro c _ _ _
    simp [Chip8.draw_rows, rowsHit, rowsCollide, List.foldlM]
  | cons r rest ih =>
    intro c hlt hnd hbnd
    have hrest32 : ∀ r' ∈ rest, r' < 32 := fun r' h => hlt r' (List.mem_cons_of_mem _ h)
    have hndrest : rest.Nodup := (List.nodup_cons.mp hnd).2
    have hnotin : r ∉ rest := (List.nodup_cons.mp hnd).1
    have hbr : (c.address_reg + r) % 65536 < 4096 := hbnd r (List.mem_cons_self _ _)
    have hdistr : ∀ r' ∈ rest, (y + r') % 32 ≠ (y + r) % 32 := by
      intro r' hr' heq
      have h32 : r' < 32 := hrest32 r' hr'
      have hr32 : r < 32 := hlt r (List.mem_cons_self _ _)
      have hne : r' ≠ r := fun hrr => hnotin (hrr ▸ hr')
      omega
    have hread : memRead c ((c.address_reg + r) % 65536) =
        some (c.memory ((c.address_reg + r) % 65536)) := by
      simp [memRead, MEMORY_SIZE, hbr]
    have hstep : Chip8.draw_rows x y (r :: rest) c =
        Chip8.draw_rows x y rest
          (Chip8.draw_cols (c.memory ((c.address_reg + r) % 65536)) x y r (List.range 8) c) := by
      simp only [Chip8.draw_rows, List.foldlM_cons, hread]
      rfl
    rw [hstep]
    have hbnd2 : ∀ r' ∈ rest,
        ((Chip8.draw_cols (c.memory ((c.address_reg + r) % 65536)) x y r
            (List.range 8) c).address_reg + r') % 65536 < 4096 := by
      rw [draw_cols_spec _ _ _ _ (List.range 8) c (fun col hc => List.mem_range.mp hc)
        (List.nodup_range 8)]
      exact fun r' h => hbnd r' (List.mem_cons_of_mem _ h)
    rw [ih _ hrest32 hndrest hbnd2]
    rw [draw_cols_spec _ _ _ _ (List.range 8) c (fun col hc => List.mem_range.mp hc)
      (List.nodup_range 8)]
    have hcollR : rowsCollide (fun q p =>
          if q = (y + r) % 32 then
            xor (c.screen q p)
              (colHit (c.memory ((c.address_reg + r) % 65536)) x (List.range 8) p)
          else c.screen q p) c.memory c.address_reg x y rest =
        rowsCollide c.screen c.memory c.address_reg x y rest := by
      apply any_congr
      intro r' hr'
      apply any_congr
      intro col hcol
      have hne := hdistr r' hr'
      simp [hne]
    simp only [Option.some.injEq, Chip8.mk.injEq, true_and, and_true, hcollR]
    constructor
    · have hconsc : rowsCollide c.screen c.memory c.address_reg x y (r :: rest) =
          (colCollide c.screen (c.memory ((c.address_reg + r) % 65536)) x (y + r)
              (List.range 8) ||
            rowsCollide c.screen c.memory c.address_reg x y rest) := by
        simp only [rowsCollide, List.any_cons]
      rw [hconsc]
      by_cases hc1 : colCollide c.screen (c.memory ((c.address_reg + r) % 65536)) x (y + r)
          (List.range 8) = true <;>
        by_cases hc2 : rowsCollide c.screen c.memory c.address_reg x y rest = true <;>
        simp [hc1, hc2, setReg_setReg_same]
    · funext q p
      have hconsh : rowsHit c.memory c.address_reg x y (r :: rest) q p =
          (((q == (y + r) % 32) &&
              colHit (c.memory ((c.address_reg + r) % 65536)) x (List.range 8) p) ||
            rowsHit c.memory c.address_reg x y rest q p) := by
        simp only [rowsHit, List.any_cons]
      rw [hconsh]
      by_cases hq : q = (y + r) % 32
      · subst hq
        have hrestQ : rowsHit c.memory c.address_reg x y rest ((y + r) % 32) p = false := by
          simp only [rowsHit, List.any_eq_false]
          intro r' hr'
          simp only [Bool.and_eq_true, not_and, beq_iff_eq]
          exact fun hq' => absurd hq'.symm (hdistr r' hr')
        simp [hrestQ]
      · simp [hq]

lemma draw_rows_bounds (x y : Nat) : ∀ (rws : List Nat) (c c' : Chip8),
    Chip8.draw_rows x y rws c = some c' →
    ∀ r ∈ rws, (c.address_reg + r) % 65536 < 4096 := by
  intro rws
  induction rws with
  | nil => intro c c' _ r hr; exact absurd hr (List.not_mem_nil r)
  | cons r0 rest ih =>
    intro c c' h r hr
    have hsplit : Chip8.draw_rows x y (r0 :: rest) c =
        match memRead c ((c.address_reg + r0) % 65536) with
        | none => none
        | some sprite_slice =>
          Chip8.draw_rows x y rest (Chip8.draw_cols sprite_slice x y r0 (List.range 8) c) := by
      simp only [Chip8.draw_rows, List.foldlM_cons]
      cases memRead c ((c.address_reg + r0) % 65536) <;> rfl
    rw [hsplit] at h
    cases hm : memRead c ((c.address_reg + r0) % 65536) with
    | none => rw [hm] at h; cases h
    | some spr =>
      rw [hm] at h
      have hb0 : (c.address_reg + r0) % 65536 < 4096 := by
        by_cases hlt : (c.address_reg + r0) % 65536 < 4096
        · exact hlt
        · rw [memRead, MEMORY_SIZE, if_neg hlt] at hm
          cases hm
      rcases List.mem_cons.mp hr with hr0 | hrr
      · subst hr0; exact hb0
      · have hc1 : (Chip8.draw_cols spr x y r0 (List.range 8) c).address_reg =
            c.address_reg := by
          rw [draw_cols_spec _ _ _ _ _ _ (fun col hc => List.mem_range.mp hc)
            (List.nodup_range 8)]
        have := ih _ c' h r hrr
        rwa [hc1] at this

/-! ## The claims -/

/-- C1 counterexample: with X = 0, Y = 15 (so a = 5, b = 7), the add
instruction stores 5 into V[X], not (a + b) mod 256 = 12: the flag register
is cleared to 0 *before* the operands are read, so V[Y] = VF is destroyed.
The claim, which quantifies over all register indices X and Y, fails when
X = 15 or Y = 15. -/
theorem c1_add_counterexample :
    (Chip8.execute_opcode c1_state (.SetRegToReg (0, 15) .Add) (fun _ => false) 0).map
        (fun r => r.1.regs 0) = some 5 ∧ (5 : Nat) ≠ (5 + 7) % 256 :=
  ⟨rfl, by decide⟩

/-- C1 (amended): for operand registers X, Y other than the flag register
itself, add stores (a + b) mod 256 into V[X] and sets VF to 1 iff
a + b > 255 (writing 0 otherwise: VF is cleared before the addition, so a
prior VF value never survives). -/
theorem c1_add_overflow (c : Chip8) (v_x v_y a b : Nat) (keys : Nat → Bool) (rand : Nat)
    (hx : v_x < 16) (hy : v_y < 16) (hx15 : v_x ≠ 15) (hy15 : v_y ≠ 15)
    (ha : c.regs v_x = a) (hb : c.regs v_y = b) (ha8 : a < 256) (hb8 : b < 256) :
    c.execute_opcode (.SetRegToReg (v_x, v_y) .Add) keys rand =
      some ({ c with
        regs := setReg (setReg c.regs 15 (if a + b > 255 then 1 else 0)) v_x ((a + b) % 256) },
        none) := by
  simp only [Chip8.execute_opcode]
  have ex : setReg c.regs 15 0 v_x = a := by simp [setReg, hx15, ha]
  have ey : setReg c.regs 15 0 v_y = b := by simp [setReg, hy15, hb]
  rw [ex, ey]
  by_cases hov : a + b > 255
  · have hmod : (a + b - 256) % 256 = (a + b) % 256 := by omega
    simp only [hov, gt_iff_lt, if_true, ite_true]
    rw [setReg_setReg_same, hmod]
  · simp only [hov, gt_iff_lt, if_false, ite_false]

/-- C1 witness: adding V1 = 0 into V0 = 0 on the fresh machine. -/
theorem c1_add_overflow_witness :
    Chip8.new.execute_opcode (.SetRegToReg (0, 1) .Add) (fun _ => false) 0 =
      some ({ Chip8.new with
        regs := setReg (setReg Chip8.new.regs 15 (if 0 + 0 > 255 then 1 else 0)) 0
          ((0 + 0) % 256) }, none) :=
  c1_add_overflow Chip8.new 0 1 0 0 (fun _ => false) 0 (by decide) (by decide)
    (by decide) (by decide) rfl rfl (by decide) (by decide)

/-- C2 counterexample: with keys 0 and 1 both pressed, the cycle stores 1
(the highest pressed index) into the pending register, not 0 (the lowest):
the scan has no early exit, so each pressed key overwrites the register. -/
theorem c2_await_key_counterexample :
    (Chip8.cycle c2_state (fun i => i == 0 || i == 1) (fun _ => 0)).map
        (fun r => r.1.regs 0) = some 1 ∧ (1 : Nat) ≠ 0 :=
  ⟨rfl, by decide⟩

/-- C2 (amended): when the machine is awaiting a key into register r and at
least one of the 16 keys is pressed, the key-resolution phase at the start
of `cycle` writes the HIGHEST-index pressed key into r and clears the wait
(the scan runs in ascending order with no early exit, so later pressed keys
overwrite earlier ones). -/
theorem c2_await_key (c : Chip8) (keys : Nat → Bool) (reg : Nat)
    (hk : c.awaiting_key = some reg) (hreg : reg < 16)
    (hp : ∃ i, i < 16 ∧ keys i = true) :
    ∃ h, h < 16 ∧ keys h = true ∧ (∀ j, h < j → j < 16 → keys j = false) ∧
      c.resolve_awaiting_key keys =
        { c with regs := setReg c.regs reg h, awaiting_key := none } := by
  cases hl : lastPressed keys 16 with
  | none =>
    obtain ⟨i, hi, hki⟩ := hp
    have := (lastPressed_spec keys 16).2 hl i hi
    rw [hki] at this
    cases this
  | some h =>
    obtain ⟨hlt, hk', hall⟩ := (lastPressed_spec keys 16).1 h hl
    refine ⟨h, hlt, hk', hall, ?_⟩
    rw [resolve_awaiting_some c keys reg h hk hl]
    have hmod : h % 256 = h := by omega
    rw [hmod]

/-- C2 witness: awaiting into V0 with only key 3 pressed. -/
theorem c2_await_key_witness :
    ∃ h, h < 16 ∧ (fun i => i == 3) h = true ∧
      (∀ j, h < j → j < 16 → (fun i => i == 3) j = false) ∧
      Chip8.resolve_awaiting_key { Chip8.new with awaiting_key := some 0 } (fun i => i == 3) =
        { { Chip8.new with awaiting_key := some 0 } with
          regs := setReg { Chip8.new with awaiting_key := some 0 }.regs 0 h,
          awaiting_key := none } :=
  c2_await_key { Chip8.new with awaiting_key := some 0 } (fun i => i == 3) 0 rfl
    (by decide) ⟨3, by decide, by decide⟩

/-- C3 counterexample: a cycle call that returns an error skips
`update_timers` entirely: the delay timer is still 5 afterwards, not 4.
The claim quantifies over every cycle call, so it fails on erroring
cycles. -/
theorem c3_timers_counterexample :
    Chip8.cycle c3_state (fun _ => false) (fun _ => 0) =
      some (c3_state, some (.OpcodeErr (.UnrecognizedOpcode 0))) ∧
    c3_state.delay_timer = 5 :=
  ⟨rfl, rfl⟩

/-- C3 (amended): `update_timers` performs exactly one floored decrement of
each timer (never going below zero), and every `cycle` call that returns
success applies it exactly once, as its final action, to the state left by
instruction execution (erroring calls return that state with the timers
untouched). -/
theorem c3_timers :
    (∀ c : Chip8, c.update_timers =
      { c with delay_timer := c.delay_timer - 1, sound_timer := c.sound_timer - 1 }) ∧
    (∀ (c : Chip8) (keys : Nat → Bool) (rands : Nat → Nat) (c' : Chip8),
      c.cycle keys rands = some (c', none) →
      ∃ cm, Chip8.cycle_iter keys rands ((c.resolve_awaiting_key keys).speed + 1).toNat 0
          (c.resolve_awaiting_key keys) = some (cm, none) ∧ c' = cm.update_timers) := by
  constructor
  · intro c
    simp only [Chip8.update_timers, Chip8.mk.injEq, true_and, and_true]
    constructor <;> (split <;> omega)
  · intro c keys rands c' h
    simp only [Chip8.cycle] at h
    cases hit : Chip8.cycle_iter keys rands ((c.resolve_awaiting_key keys).speed + 1).toNat 0
        (c.resolve_awaiting_key keys) with
    | none => rw [hit] at h; cases h
    | some p =>
      obtain ⟨cm, e⟩ := p
      rw [hit] at h
      cases e with
      | none =>
        refine ⟨cm, rfl, ?_⟩
        injection h with h1
        injection h1 with h2 h3
        exact h2.symm
      | some err => simp at h

/-- C3 witness: a successful jump-to-self cycle starting with delay timer 5
and sound timer 3 ends with them at 4 and 2. -/
theorem c3_timers_witness :
    ∃ cm, Chip8.cycle_iter (fun _ => false) (fun _ => 0)
        ((Chip8.resolve_awaiting_key
            { Chip8.new.load_program [0x12, 0x00] with delay_timer := 5, sound_timer := 3, speed := 0 }
            (fun _ => false)).speed + 1).toNat 0
        (Chip8.resolve_awaiting_key
          { Chip8.new.load_program [0x12, 0x00] with delay_timer := 5, sound_timer := 3, speed := 0 }
          (fun _ => false)) = some (cm, none) ∧
      ({ Chip8.new.load_program [0x12, 0x00] with
          delay_timer := 4, sound_timer := 2, speed := 0 } : Chip8) = cm.update_timers :=
  (c3_timers.2 { Chip8.new.load_program [0x12, 0x00] with delay_timer := 5, sound_timer := 3, speed := 0 }
    (fun _ => false) (fun _ => 0)
    { Chip8.new.load_program [0x12, 0x00] with delay_timer := 4, sound_timer := 2, speed := 0 }
    rfl)

/-- C4: for every machine state whose call stack is empty, executing the
return instruction yields the call-stack-underflow error and leaves the
machine state unchanged (in particular the program counter). -/
theorem c4_return_empty_stack (c : Chip8) (keys : Nat → Bool) (rand : Nat)
    (h : c.stack = []) :
    c.execute_opcode .Return keys rand = some (c, some .EmptyCallStack) := by
  unfold Chip8.execute_opcode
  rw [h]

/-- C4 witness: the freshly constructed machine has an empty stack, and
return on it fails with `EmptyCallStack`, leaving the state unchanged. -/
theorem c4_return_empty_stack_witness :
    Chip8.new.stack = [] ∧
      Chip8.new.execute_opcode .Return (fun _ => false) 0 =
        some (Chip8.new, some .EmptyCallStack) :=
  ⟨rfl, c4_return_empty_stack Chip8.new (fun _ => false) 0 rfl⟩

/-- C5 counterexample: drawing 2 sprite rows with the address register at
4095 aborts on the out-of-bounds read of address 4096 (`none`): execution
produces no post-state at all, contrary to the claimed read-and-XOR
behaviour for every state. -/
theorem c5_draw_counterexample :
    Chip8.execute_opcode c5_state (.DrawSprite (0, 1) 2) (fun _ => false) 0 = none := rfl

/-- C5 (amended): provided the `rows` sprite-byte reads are in bounds
(address register + rows ≤ 4096; `rows ≤ 15` as any draw instruction's row
nibble), the draw instruction XORs exactly the sprite mask into the
framebuffer — bit `col` (MSB first) of the byte at address register + `row`
lands at `((V[Y] + row) mod 32, (V[X] + col) mod 64)` — and VF is written 1
if some sprite bit lands on a previously-set pixel, and written 0 otherwise
(it is cleared first, so a prior VF value never survives). -/
theorem c5_draw_sprite (c : Chip8) (v_x v_y rows : Nat) (keys : Nat → Bool) (rand : Nat)
    (hrows : rows ≤ 15) (hbound : c.address_reg + rows ≤ 4096) :
    c.execute_opcode (.DrawSprite (v_x, v_y) rows) keys rand =
      some ({ c with
        screen := fun q p =>
          xor (c.screen q p) (spriteHit c (c.regs v_x) (c.regs v_y) rows q p),
        regs := setReg c.regs 0xF
          (if spriteCollide c (c.regs v_x) (c.regs v_y) rows then 1 else 0) }, none) := by
  simp only [Chip8.execute_opcode]
  have hbnds : ∀ r ∈ List.range rows,
      (({ c with regs := setReg c.regs 0xF 0 } : Chip8).address_reg + r) % 65536 < 4096 := by
    intro r hr
    have hrlt := List.mem_range.mp hr
    have hlt : c.address_reg + r < 4096 := by omega
    have : ({ c with regs := setReg c.regs 0xF 0 } : Chip8).address_reg = c.address_reg := rfl
    rw [this, Nat.mod_eq_of_lt (by omega)]
    exact hlt
  rw [draw_rows_spec _ _ (List.range rows) _
    (fun r hr => by have := List.mem_range.mp hr; omega) (List.nodup_range rows) hbnds]
  simp only [Option.some.injEq, Prod.mk.injEq, Chip8.mk.injEq, true_and, and_true]
  constructor
  · simp only [spriteCollide]
    by_cases hcoll : rowsCollide c.screen c.memory c.address_reg (c.regs v_x) (c.regs v_y)
        (List.range rows) = true <;>
      simp [hcoll, setReg_setReg_same]
  · rfl

/-- C5 witness: drawing one all-zero sprite row on the fresh machine. -/
theorem c5_draw_sprite_witness :
    Chip8.new.execute_opcode (.DrawSprite (0, 1) 1) (fun _ => false) 0 =
      some ({ Chip8.new with
        screen := fun q p => xor (Chip8.new.screen q p)
          (spriteHit Chip8.new (Chip8.new.regs 0) (Chip8.new.regs 1) 1 q p),
        regs := setReg Chip8.new.regs 0xF
          (if spriteCollide Chip8.new (Chip8.new.regs 0) (Chip8.new.regs 1) 1 then 1
           else 0) }, none) :=
  c5_draw_sprite Chip8.new 0 1 1 (fun _ => false) 0 (by decide) (by decide)

/-- C6: executing the same draw instruction (row count at most 15) twice in
succession — both executions completing, with the operand registers and the
address register holding the same values for the second draw — restores the
framebuffer exactly, and the second draw reports a collision (VF = 1)
whenever the first draw turned at least one pixel on. -/
theorem c6_draw_twice (c c1 c2 : Chip8) (v_x v_y rows : Nat) (keys keys' : Nat → Bool)
    (rand rand' : Nat) (hrows : rows ≤ 15)
    (h1 : c.execute_opcode (.DrawSprite (v_x, v_y) rows) keys rand = some (c1, none))
    (h2 : c1.execute_opcode (.DrawSprite (v_x, v_y) rows) keys' rand' = some (c2, none))
    (hx : c1.regs v_x = c.regs v_x) (hy : c1.regs v_y = c.regs v_y) :
    c2.screen = c.screen ∧
      ((∃ q p, c.screen q p = false ∧ c1.screen q p = true) → c2.regs 0xF = 1) := by
  simp only [Chip8.execute_opcode] at h1 h2
  have hrow32 : ∀ r ∈ List.range rows, r < 32 := by
    intro r hr
    have := List.mem_range.mp hr
    omega
  -- first draw
  cases hd1 : Chip8.draw_rows (c.regs v_x) (c.regs v_y) (List.range rows)
      { c with regs := setReg c.regs 0xF 0 } with
  | none => rw [hd1] at h1; cases h1
  | some d1 =>
    rw [hd1] at h1
    have hd1c1 : d1 = c1 := by
      have := (Option.some.injEq _ _).mp h1
      exact (Prod.mk.injEq _ _ _ _ ▸ this).1
    subst hd1c1
    have hbnds := draw_rows_bounds _ _ _ _ _ hd1
    have hspec1 := draw_rows_spec (c.regs v_x) (c.regs v_y) (List.range rows)
      { c with regs := setReg c.regs 0xF 0 } hrow32 (List.nodup_range rows) hbnds
    rw [hd1] at hspec1
    have hc1rec := (Option.some.injEq _ _).mp hspec1
    have hscr1 : d1.screen = fun q p =>
        xor (c.screen q p)
          (rowsHit c.memory c.address_reg (c.regs v_x) (c.regs v_y) (List.range rows) q p) := by
      rw [hc1rec]
    have hmem1 : d1.memory = c.memory := by rw [hc1rec]
    have haddr1 : d1.address_reg = c.address_reg := by rw [hc1rec]
    have hregs1 : setReg d1.regs 0xF 0 = setReg c.regs 0xF 0 := by
      rw [hc1rec]
      by_cases hcoll : rowsCollide c.screen c.memory c.address_reg (c.regs v_x)
          (c.regs v_y) (List.range rows) = true <;>
        simp [hcoll, setReg_setReg_same]
    -- second draw
    have hbnds2 : ∀ r ∈ List.range rows,
        (({ d1 with regs := setReg d1.regs 0xF 0 } : Chip8).address_reg + r) % 65536 < 4096 := by
      intro r hr
      have hb := hbnds r hr
      have : ({ d1 with regs := setReg d1.regs 0xF 0 } : Chip8).address_reg =
          d1.address_reg := rfl
      rw [this, haddr1]
      exact hb
    have hspec2 := draw_rows_spec (d1.regs v_x) (d1.regs v_y) (List.range rows)
      { d1 with regs := setReg d1.regs 0xF 0 } hrow32 (List.nodup_range rows) hbnds2
    rw [hspec2] at h2
    have hc2rec : ({ ({ d1 with regs := setReg d1.regs 0xF 0 } : Chip8) with
        screen := fun q p =>
          xor (({ d1 with regs := setReg d1.regs 0xF 0 } : Chip8).screen q p)
            (rowsHit ({ d1 with regs := setReg d1.regs 0xF 0 } : Chip8).memory
              ({ d1 with regs := setReg d1.regs 0xF 0 } : Chip8).address_reg
              (d1.regs v_x) (d1.regs v_y) (List.range rows) q p),
        regs := if rowsCollide ({ d1 with regs := setReg d1.regs 0xF 0 } : Chip8).screen
              ({ d1 with regs := setReg d1.regs 0xF 0 } : Chip8).memory
              ({ d1 with regs := setReg d1.regs 0xF 0 } : Chip8).address_reg
              (d1.regs v_x) (d1.regs v_y) (List.range rows) = true then
            setReg ({ d1 with regs := setReg d1.regs 0xF 0 } : Chip8).regs 0xF 1
          else ({ d1 with regs := setReg d1.regs 0xF 0 } : Chip8).regs } : Chip8) = c2 := by
      have := (Option.some.injEq _ _).mp h2
      exact (Prod.mk.injEq _ _ _ _ ▸ this).1
    have hscr2 : c2.screen = fun q p =>
        xor (d1.screen q p)
          (rowsHit c.memory c.address_reg (c.regs v_x) (c.regs v_y) (List.range rows) q p) := by
      rw [← hc2rec]
      simp only [hx, hy, hmem1, haddr1]
    have hregs2 : c2.regs = if rowsCollide d1.screen c.memory c.address_reg (c.regs v_x)
          (c.regs v_y) (List.range rows) = true then
        setReg (setReg c.regs 0xF 0) 0xF 1
      else setReg c.regs 0xF 0 := by
      rw [← hc2rec]
      simp only [hx, hy, hmem1, haddr1, hregs1]
    constructor
    · funext q p
      rw [hscr2]
      simp only [hscr1]
      rw [Bool.xor_assoc, Bool.xor_self, Bool.xor_false]
    · rintro ⟨q, p, hs0, hs1⟩
      have hm : rowsHit c.memory c.address_reg (c.regs v_x) (c.regs v_y)
          (List.range rows) q p = true := by
        rw [hscr1] at hs1
        simp only at hs1
        rw [hs0, Bool.false_xor] at hs1
        exact hs1
      simp only [rowsHit, List.any_eq_true] at hm
      obtain ⟨row, hrowmem, hconj⟩ := hm
      rw [Bool.and_eq_true] at hconj
      obtain ⟨hq, hch⟩ := hconj
      simp only [colHit, List.any_eq_true] at hch
      obtain ⟨col, hcolmem, hbits⟩ := hch
      rw [Bool.and_eq_true] at hbits
      obtain ⟨hbit, hp⟩ := hbits
      have hq' : q = (c.regs v_y + row) % 32 := beq_iff_eq.mp hq
      have hp' : p = (c.regs v_x + col) % 64 := beq_iff_eq.mp hp
      have hcollide : rowsCollide d1.screen c.memory c.address_reg (c.regs v_x)
          (c.regs v_y) (List.range rows) = true := by
        simp only [rowsCollide, List.any_eq_true]
        refine ⟨row, hrowmem, ?_⟩
        simp only [colCollide, List.any_eq_true]
        refine ⟨col, hcolmem, ?_⟩
        rw [hbit, Bool.true_and, ← hq', ← hp']
        exact hs1
      rw [hregs2, if_pos hcollide]
      simp [setReg]

/-- C6 witness: drawing an all-zero one-row sprite twice on the fresh
machine (both executions shown concretely); the restored screen is the
fresh machine's and the collision premise is vacuous. -/
theorem c6_draw_twice_witness :
    ({ { Chip8.new with regs := setReg Chip8.new.regs 0xF 0 } with
        regs := setReg (setReg Chip8.new.regs 0xF 0) 0xF 0 } : Chip8).screen =
      Chip8.new.screen ∧
    ((∃ q p, Chip8.new.screen q p = false ∧
        ({ Chip8.new with regs := setReg Chip8.new.regs 0xF 0 } : Chip8).screen q p = true) →
      ({ { Chip8.new with regs := setReg Chip8.new.regs 0xF 0 } with
          regs := setReg (setReg Chip8.new.regs 0xF 0) 0xF 0 } : Chip8).regs 0xF = 1) :=
  by
    refine c6_draw_twice Chip8.new _ _ 0 1 1 (fun _ => false) (fun _ => true) 0 1
      (by decide) rfl rfl (by decide) (by decide)

/-- C7 counterexample: with X = 15 (V[15] = 1), shift-left stores 0 into
V[X], not V[X] * 2 mod 256 = 2: the flag write `VF = V[X] & 128` happens
first and destroys V[X] when X = 15.  The claim, which quantifies over every
pair of register indices, fails for X = 15. -/
theorem c7_shift_counterexample :
    (Chip8.execute_opcode c7_state (.SetRegToReg (15, 0) .ShiftLeft) (fun _ => false) 0).map
        (fun r => r.1.regs 15) = some 0 ∧ (0 : Nat) ≠ (1 * 2) % 256 :=
  ⟨rfl, by decide⟩

/-- C7 (amended): for X ≠ 15 (and arbitrary Y), shift-left stores
V[X] * 2 mod 256 and sets VF to the pre-shift bit 7 of V[X] in masked form
(`V[X] & 128`); shift-right stores V[X] / 2 and sets VF to the pre-shift
bit 0 (`V[X] & 1`).  The second operand register Y does not occur in the
result, which exhibits that its value has no effect. -/
theorem c7_shifts (c : Chip8) (v_x v_y a : Nat) (keys keys' : Nat → Bool) (rand rand' : Nat)
    (hx : v_x < 16) (hx15 : v_x ≠ 15) (ha : c.regs v_x = a) :
    c.execute_opcode (.SetRegToReg (v_x, v_y) .ShiftLeft) keys rand =
      some ({ c with regs := setReg (setReg c.regs 15 (a &&& 128)) v_x ((a * 2) % 256) },
        none) ∧
    c.execute_opcode (.SetRegToReg (v_x, v_y) .ShiftRight) keys' rand' =
      some ({ c with regs := setReg (setReg c.regs 15 (a &&& 1)) v_x (a / 2) }, none) := by
  simp only [Chip8.execute_opcode]
  have exl : setReg c.regs 15 (c.regs v_x &&& 128) v_x = a := by simp [setReg, hx15, ha]
  have exr : setReg c.regs 15 (c.regs v_x &&& 0x1) v_x = a := by simp [setReg, hx15, ha]
  exact ⟨by rw [exl, ha, Nat.shiftLeft_eq], by rw [exr, ha, Nat.shiftRight_eq_div_pow]⟩

/-- C7 witness: shifting V0 = 0 on the fresh machine (Y = 1). -/
theorem c7_shifts_witness :
    Chip8.new.execute_opcode (.SetRegToReg (0, 1) .ShiftLeft) (fun _ => false) 0 =
      some ({ Chip8.new with
        regs := setReg (setReg Chip8.new.regs 15 (0 &&& 128)) 0 ((0 * 2) % 256) }, none) ∧
    Chip8.new.execute_opcode (.SetRegToReg (0, 1) .ShiftRight) (fun _ => true) 1 =
      some ({ Chip8.new with
        regs := setReg (setReg Chip8.new.regs 15 (0 &&& 1)) 0 (0 / 2) }, none) :=
  c7_shifts Chip8.new 0 1 0 (fun _ => false) (fun _ => true) 0 1 (by decide) (by decide) rfl

/-- C8: the decoder is a pure total function, hence deterministic: two
decodes of one word agree.  Every 16-bit word matching no defined opcode
family decodes to `UnrecognizedOpcode` carrying exactly that word; every
word of the ALU family (top nibble 8) whose mode nibble is undefined
decodes to `InvalidModeForSetRegToReg` carrying exactly that nibble; and
conversely every produced error carries the word (resp. nibble) it was
caused by. -/
theorem c8_decoder :
    (∀ (b : Nat) (r1 r2 : Except OpcodeError Opcode),
      Opcode.from_u16 b = r1 → Opcode.from_u16 b = r2 → r1 = r2) ∧
    (∀ b, b < 65536 → definedFamily b = false →
      Opcode.from_u16 b = .error (.UnrecognizedOpcode b)) ∧
    (∀ b, b < 65536 → b &&& 0xF000 = 0x8000 → SetRegMode.from_u8 (b &&& 0x000F) = none →
      Opcode.from_u16 b = .error (.InvalidModeForSetRegToReg (b &&& 0x000F))) ∧
    (∀ b w, Opcode.from_u16 b = .error (.UnrecognizedOpcode w) → w = b) ∧
    (∀ b m, Opcode.from_u16 b = .error (.InvalidModeForSetRegToReg m) → m = b &&& 0x000F) := by
  refine ⟨fun b r1 r2 h1 h2 => h1 ▸ h2, fun b _ hdf => ?_, fun b _ h8 hm => ?_,
    fun b w h => ?_, fun b m h => ?_⟩
  · rcases from_u16_total b with ⟨_, h⟩ | ⟨h8, _, _⟩ | ⟨_, ht, _⟩
    · exact h
    · simp [definedFamily, h8] at hdf
    · rw [ht] at hdf; cases hdf
  · rcases from_u16_total b with ⟨hdf, _⟩ | ⟨_, _, h⟩ | ⟨_, _, hgood⟩
    · simp [definedFamily, h8] at hdf
    · exact h
    · exact absurd hm (hgood h8)
  · rcases from_u16_total b with ⟨_, he⟩ | ⟨_, _, he⟩ | ⟨⟨op, he⟩, _, _⟩ <;> rw [he] at h <;>
      simp_all
  · rcases from_u16_total b with ⟨_, he⟩ | ⟨_, _, he⟩ | ⟨⟨op, he⟩, _, _⟩ <;> rw [he] at h <;>
      simp_all

/-- C8 witness: the word 0xFFFF matches no family and decodes to the
unrecognized-opcode error carrying 0xFFFF; the ALU word 0x8008 has the
undefined mode nibble 8 and decodes to the invalid-mode error carrying it. -/
theorem c8_decoder_witness :
    Opcode.from_u16 0xFFFF = .error (.UnrecognizedOpcode 0xFFFF) ∧
      Opcode.from_u16 0x8008 = .error (.InvalidModeForSetRegToReg (0x8008 &&& 0x000F)) :=
  ⟨c8_decoder.2.1 0xFFFF (by decide) (by decide),
   c8_decoder.2.2.1 0x8008 (by decide) (by decide) (by decide)⟩

/-- C9: a freshly constructed machine loaded with the jump-to-self program
`[0x12, 0x00]`, for any non-negative speed, any key vector and any random
oracle, runs any number of cycles without an abort or error, and the state
(in particular the program counter, equal to 0x200) is unchanged after each
cycle. -/
theorem c9_jump_self (n : Nat) (s : Int) (keys : Nat → Bool) (rands2 : Nat → Nat → Nat)
    (hs : 0 ≤ s) :
    Chip8.cycleN keys rands2 n (jump_self_machine s) = some (jump_self_machine s, none) := by
  induction n with
  | zero => rfl
  | succ n ih =>
    unfold Chip8.cycleN
    rw [cycle_jump_self s keys (rands2 n)]
    exact ih

/-- C9 witness: two cycles at speed 0. -/
theorem c9_jump_self_witness :
    Chip8.cycleN (fun _ => false) (fun _ _ => 0) 2 (jump_self_machine 0) =
      some (jump_self_machine 0, none) :=
  c9_jump_self 2 0 (fun _ => false) (fun _ _ => 0) (by decide)

/-- C10: the `InvalidRegister` and `AddressOutOfBounds` error variants are
never produced: every error returned by `execute_opcode` is
`EmptyCallStack`, and every error returned by `cycle` is `EmptyCallStack`
or a wrapped decode error.  Memory accesses are unguarded array indexing:
from a freshly constructed machine, a program reaching the BCD instruction
with the address register at 0xFFE, or a fetch with the program counter at
0xFFF, aborts (`none`) on an out-of-bounds access instead of reporting an
error value. -/
theorem c10_error_variants :
    (∀ (c : Chip8) (op : Opcode) (keys : Nat → Bool) (rand : Nat) (c' : Chip8)
        (e : RuntimeError), c.execute_opcode op keys rand = some (c', some e) →
      (∀ r, e ≠ .InvalidRegister r) ∧ (∀ a, e ≠ .AddressOutOfBounds a)) ∧
    (∀ (c : Chip8) (keys : Nat → Bool) (rands : Nat → Nat) (c' : Chip8) (e : RuntimeError),
      c.cycle keys rands = some (c', some e) →
      (∀ r, e ≠ .InvalidRegister r) ∧ (∀ a, e ≠ .AddressOutOfBounds a)) ∧
    Chip8.cycle bcd_oob_machine (fun _ => false) (fun _ => 0) = none ∧
    Chip8.cycle fetch_oob_machine (fun _ => false) (fun _ => 0) = none := by
  refine ⟨?_, ?_, rfl, rfl⟩
  · intro c op keys rand c' e h
    have := execute_opcode_error c op keys rand c' e h
    subst this
    exact ⟨fun r hr => RuntimeError.noConfusion hr, fun a ha => RuntimeError.noConfusion ha⟩
  · intro c keys rands c' e h
    rcases cycle_error c keys rands c' e h with ⟨oe, he⟩ | he <;> subst he
    · exact ⟨fun r hr => RuntimeError.noConfusion hr, fun a ha => RuntimeError.noConfusion ha⟩
    · exact ⟨fun r hr => RuntimeError.noConfusion hr, fun a ha => RuntimeError.noConfusion ha⟩

/-- C10 witness: the empty-stack return error on the fresh machine is
`EmptyCallStack`, which is neither `InvalidRegister 0` nor
`AddressOutOfBounds 4096`. -/
theorem c10_error_variants_witness :
    RuntimeError.EmptyCallStack ≠ RuntimeError.InvalidRegister 0 ∧
      RuntimeError.EmptyCallStack ≠ RuntimeError.AddressOutOfBounds 4096 :=
  ⟨(c10_error_variants.1 Chip8.new .Return (fun _ => false) 0 Chip8.new .EmptyCallStack
      rfl).1 0,
   (c10_error_variants.1 Chip8.new .Return (fun _ => false) 0 Chip8.new .EmptyCallStack
      rfl).2 4096⟩
